import Mathlib

/-!
Shallow embedding of `holoviews/core/data/multipath.py` (`class MultiInterface`),
a composite data-interface wrapping an ordered list of tabular sub-datasets
("paths") and dispatching every query to a per-path backend interface.

The backend tabular engines are external collaborators; they are modelled as an
abstract record of operations (`Backend`) over an opaque table type `T`.
The composite dataset carries the path list, the shared key/value dimensions,
and the optional legacy `level` override, exactly as the Python object does.
Operations that can raise `IndexError` in Python (building the template proxy
on an empty path list) return `Option`, with `none` standing for the raised
exception.
-/

namespace Multipath

/-- The single-table template proxy: the `Dataset` constructed by
`MultiInterface.template`, holding one path's raw data at a time together with
the composite's dimension metadata. -/
structure Proxy (T D : Type) where
  data : T
  kdims : List D
  vdims : List D
deriving DecidableEq

/-- Rebinding the proxy to another path's data, matching the `ds.data = d`
assignments performed inside each dispatch loop. -/
def Proxy.rebind {T D : Type} (pr : Proxy T D) (d : T) : Proxy T D :=
  { pr with data := d }

/-- An abstract per-table backend interface: the operations the code invokes on
`ds.interface` (the concrete tabular interface resolved for the template).
`T` is the raw table type, `D` the dimension type, `V` the scalar value type,
`S` the type of a keyword selection, `M` the type of a dimension mapping. -/
structure Backend (T D V S M : Type) where
  length : Proxy T D → Nat
  shape : Proxy T D → Nat × Nat
  range : Proxy T D → Option D → Option V × Option V
  select : Proxy T D → S → T
  values : Proxy T D → D → Bool → Bool → List V
  redim : Proxy T D → M → T

/-- The composite dataset as seen by the classmethods of `MultiInterface`:
`data` is the list of paths, `kdims`/`vdims` the shared dimension lists,
`level` the optional legacy scalar override (`getattr(dataset, 'level', None)`). -/
structure Dataset (T D V : Type) where
  data : List T
  kdims : List D
  vdims : List D
  level : Option V
  /-- Modelled from the spec: the element collaborator supplies a flag
  indicating closed-shape (`BaseShape`) semantics; `isinstance(dataset,
  BaseShape)` in `split` is not decidable from this file alone, so the flag
  stands for that subtype test. -/
  isBaseShape : Bool
deriving DecidableEq

/-- An entry of a value sequence returned by the composite: either a value
coming from a path's backend or the break sentinel (`np.NaN`) inserted between
paths.  The sentinel is kept distinguishable, as the spec's design notes
recommend for a typed model of the NaN convention. -/
inductive MVal (V : Type) where
  | val (v : V)
  | nan
deriving DecidableEq

/-- The error raised by the unsupported operations.  The Python code raises
`NotImplementedError`; the spec names this condition
`UnsupportedOperationError`. -/
inductive MultiError where
  | unsupportedOperation
deriving DecidableEq

/-- Modelled from the spec: `dataset.dimensions()` (defined outside this file,
on the `Dimensioned` base class) — for an empty composite the column count is
`len(key_dims) + len(value_dims)`, i.e. `dimensions()` lists the key
dimensions followed by the value dimensions. -/
def dimensions {T D V : Type} (ds : Dataset T D V) : List D :=
  ds.kdims ++ ds.vdims

/-- Modelled from the spec: `dataset.get_dimension(dim)` (defined outside this
file) resolves a dimension reference against the composite's dimension
descriptors, returning the matching dimension or `None` when it is not among
them. -/
def get_dimension {T D V : Type} [DecidableEq D] (ds : Dataset T D V) (d : D) :
    Option D :=
  if d ∈ ds.kdims ∨ d ∈ ds.vdims then some d else none

/-- Modelled from the spec: `max_range` (imported from `..util`, outside this
file) merges per-path ranges with the maximum spanning range rule — the
combined minimum is the minimum of all non-`None` minima (`None` if all are
`None`), and the combined maximum is the maximum of all non-`None` maxima. -/
def max_range {V : Type} [LinearOrder V] (rs : List (Option V × Option V)) :
    Option V × Option V :=
  ((rs.filterMap Prod.fst).min?, (rs.filterMap Prod.snd).max?)

namespace MultiInterface

variable {T D V S M : Type}

/-- The body of `MultiInterface.template` once `dataset.data[0]` has been
read: a `Dataset` proxy around the first path's data, with the composite's
kdims, and vdims emptied when the legacy `level` override is set
(`dataset.vdims if getattr(dataset, 'level', None) is None else []`). -/
def template0 (ds : Dataset T D V) (d0 : T) : Proxy T D :=
  { data := d0
    kdims := ds.kdims
    vdims := if ds.level.isSome then [] else ds.vdims }

/-- `MultiInterface.template`: builds the single-table proxy around
`dataset.data[0]`.  On an empty path list, `dataset.data[0]` raises
`IndexError`, modelled as `none`. -/
def template (ds : Dataset T D V) : Option (Proxy T D) :=
  (ds.data.head?).map (template0 ds)

/-- `MultiInterface.range`: `(None, None)` for an empty composite; otherwise
resolves the dimension, returns `(level, level)` when the legacy `level`
override is set and the resolved dimension is `dataset.vdims[0]` (an
`IndexError`, modelled as `none`, when `vdims` is empty there), and otherwise
merges the per-path backend ranges with `max_range`. -/
def range [DecidableEq D] [LinearOrder V] (B : Backend T D V S M)
    (ds : Dataset T D V) (d : D) : Option (Option V × Option V) :=
  match ds.data with
  | [] => some (none, none)
  | d0 :: rest =>
    let pr := template0 ds d0
    let dimR := get_dimension ds d
    match ds.level with
    | some lv =>
      match ds.vdims with
      | [] => none
      | v0 :: _ =>
        if dimR = some v0 then some (some lv, some lv)
        else some (max_range ((d0 :: rest).map (fun dd => B.range (pr.rebind dd) dimR)))
    | none =>
      some (max_range ((d0 :: rest).map (fun dd => B.range (pr.rebind dd) dimR)))

/-- `MultiInterface.select`: builds the template proxy (with no emptiness
guard — `none` models the `IndexError` on an empty composite), then collects
each path's backend selection result into a list in path order. -/
def select (B : Backend T D V S M) (ds : Dataset T D V) (sel : S) :
    Option (List T) :=
  match template ds with
  | none => none
  | some pr => some (ds.data.map (fun d => B.select (pr.rebind d) sel))

/-- `MultiInterface.aggregate`: `raise NotImplementedError`. -/
def aggregate {F : Type} (_columns : Dataset T D V) (_dims : List D)
    (_function : F) : Except MultiError (List T) :=
  .error .unsupportedOperation

/-- `MultiInterface.groupby`: `raise NotImplementedError`. -/
def groupby {C G : Type} (_columns : Dataset T D V) (_dims : List D)
    (_containerType : C) (_groupType : G) : Except MultiError (List T) :=
  .error .unsupportedOperation

/-- `MultiInterface.sample`: `raise NotImplementedError`. -/
def sample (_columns : Dataset T D V) (_samples : List T) :
    Except MultiError (List T) :=
  .error .unsupportedOperation

/-- `MultiInterface.shape`: `(0, len(dataset.dimensions()))` for an empty
composite; otherwise sums per-path backend row counts (the column count is
overwritten by each iteration, so the last path's survives) and adds
`len(dataset.data) - 1` separator rows. -/
def shape (B : Backend T D V S M) (ds : Dataset T D V) : Nat × Nat :=
  match ds.data with
  | [] => (0, (dimensions ds).length)
  | d0 :: rest =>
    let pr := template0 ds d0
    let f := (d0 :: rest).foldl
      (fun acc d => (acc.1 + (B.shape (pr.rebind d)).1, (B.shape (pr.rebind d)).2))
      (0, 0)
    (f.1 + ((d0 :: rest).length - 1), f.2)

/-- `MultiInterface.length`: `0` for an empty composite; otherwise the sum of
per-path backend lengths plus `len(dataset.data) - 1` separator rows. -/
def length (B : Backend T D V S M) (ds : Dataset T D V) : Nat :=
  match ds.data with
  | [] => 0
  | d0 :: rest =>
    ((d0 :: rest).map (fun d => B.length ((template0 ds d0).rebind d))).sum
      + ((d0 :: rest).length - 1)

/-- `MultiInterface.nonzero`: `bool(cls.length(dataset))`. -/
def nonzero (B : Backend T D V S M) (ds : Dataset T D V) : Bool :=
  length B ds != 0

/-- `MultiInterface.redim`: returns `dataset.data` (the empty list) unchanged
for an empty composite; otherwise collects each path's backend redim result
into a new list in path order. -/
def redim (B : Backend T D V S M) (ds : Dataset T D V) (m : M) : List T :=
  match ds.data with
  | [] => []
  | d0 :: rest =>
    (d0 :: rest).map (fun d => B.redim ((template0 ds d0).rebind d) m)

/-- `MultiInterface.values`: `np.array([])` for an empty composite; otherwise
appends each path's backend value sequence and, when `expanded`, a one-element
break-sentinel chunk `[np.NaN]` after it; finally concatenates all chunks,
dropping the trailing sentinel chunk (`values[:-1]`) when `expanded`. -/
def values (B : Backend T D V S M) (ds : Dataset T D V) (dim : D)
    (expanded flat : Bool) : List (MVal V) :=
  match ds.data with
  | [] => []
  | d0 :: rest =>
    let pr := template0 ds d0
    let chunks := (d0 :: rest).flatMap (fun d =>
      let vs := (B.values (pr.rebind d) dim expanded flat).map MVal.val
      if expanded then [vs, [MVal.nan]] else [vs])
    (if expanded then chunks.dropLast else chunks).flatten

/-- Modelled from the spec: `dataset.clone(d, datatype=cls.subtypes)` (defined
outside this file) wraps one path's raw data as an independent single-table
dataset, freshly resolved against the backend registry's subtypes, reusing the
composite's dimension metadata. -/
def clone (ds : Dataset T D V) (d : T) : Proxy T D :=
  { data := d, kdims := ds.kdims, vdims := ds.vdims }

/-- `MultiInterface.split`: if the composite is a closed shape (`BaseShape`),
return `[dataset]` unchanged; otherwise clone each path of
`dataset.data[start:end]` into an independent single-table dataset, in path
order. -/
def split (ds : Dataset T D V) (start stop : Nat) :
    List (Dataset T D V ⊕ Proxy T D) :=
  if ds.isBaseShape then [Sum.inl ds]
  else ((ds.data.take stop).drop start).map (fun d => Sum.inr (clone ds d))

end MultiInterface

/-! Concrete instantiation used to evaluate the embedding on explicit inputs:
a table is a list of integers (one column), dimensions are naturals,
selections and dimension mappings are trivial. -/

/-- A concrete single-column backend: length and shape count the rows, range
reports the first element at both ends, `select` keeps the non-negative rows,
and `values`/`redim` return the rows themselves. -/
def TB : Backend (List Int) Nat Int Unit Unit where
  length pr := pr.data.length
  shape pr := (pr.data.length, pr.kdims.length + pr.vdims.length)
  range pr _ := (pr.data.head?, pr.data.head?)
  select pr _ := pr.data.filter (fun v => 0 ≤ v)
  values pr _ _ _ := pr.data
  redim pr _ := pr.data

/-- A composite with no paths. -/
def dsEmpty : Dataset (List Int) Nat Int :=
  { data := [], kdims := [0], vdims := [1], level := none, isBaseShape := false }

/-- A composite with no paths but with the legacy `level` override set. -/
def dsLevelEmpty : Dataset (List Int) Nat Int :=
  { data := [], kdims := [0], vdims := [1], level := some 5, isBaseShape := false }

/-- A composite of two paths, `[1, 2]` and `[3]`. -/
def dsTwo : Dataset (List Int) Nat Int :=
  { data := [[1, 2], [3]], kdims := [0], vdims := [1], level := none,
    isBaseShape := false }

/-- A composite of two paths with the legacy `level` override set. -/
def dsTwoLevel : Dataset (List Int) Nat Int :=
  { data := [[1, 2], [3]], kdims := [0], vdims := [1], level := some 5,
    isBaseShape := false }

/-- A composite of two zero-length paths. -/
def dsZeros : Dataset (List Int) Nat Int :=
  { data := [[], []], kdims := [0], vdims := [1], level := none,
    isBaseShape := false }

/-- A closed-shape composite (the `BaseShape` case of `split`). -/
def dsShape : Dataset (List Int) Nat Int :=
  { data := [[1, 2], [3]], kdims := [0], vdims := [1], level := none,
    isBaseShape := true }

/-! General list lemmas used to reason about the dispatch loops. -/

/-- The row-accumulating fold performed by `shape` computes the sum of the
per-path row counts in its first component. -/
theorem foldl_rows_fst {T : Type} (g : T → Nat × Nat) :
    ∀ (l : List T) (a b : Nat),
      (l.foldl (fun acc d => (acc.1 + (g d).1, (g d).2)) (a, b)).1
        = a + (l.map (fun d => (g d).1)).sum
  | [], a, _ => by simp
  | d :: t, a, b => by
    simpa [foldl_rows_fst g t] using by omega

/-- Appending a separator chunk after every per-element chunk and dropping the
final one before flattening is the same as interleaving the separator between
the chunks. -/
theorem dropLast_flatten_sep {α β : Type} (sep : List α) (f : β → List α) :
    ∀ l : List β, l ≠ [] →
      ((l.flatMap fun d => [f d, sep]).dropLast).flatten
        = List.intercalate sep (l.map f)
  | [], h => absurd rfl h
  | [a], _ => by simp [List.intercalate]
  | a :: b :: t, _ => by
    have ih := dropLast_flatten_sep sep f (b :: t) (by simp)
    have hne : ((b :: t).flatMap fun d => [f d, sep]) ≠ [] := by simp
    calc (((a :: b :: t).flatMap fun d => [f d, sep]).dropLast).flatten
        = (([f a, sep] ++ ((b :: t).flatMap fun d => [f d, sep])).dropLast).flatten := by
          simp [List.flatMap_cons]
      _ = ([f a, sep] ++ (((b :: t).flatMap fun d => [f d, sep]).dropLast)).flatten := by
          rw [List.dropLast_append_of_ne_nil _ hne]
      _ = f a ++ sep ++ ((((b :: t).flatMap fun d => [f d, sep]).dropLast).flatten) := by
          simp
      _ = f a ++ sep ++ List.intercalate sep ((b :: t).map f) := by rw [ih]
      _ = List.intercalate sep ((a :: b :: t).map f) := by
          simp [List.intercalate, List.intersperse_cons_cons]

/-- Flattening singleton chunks is mapping. -/
theorem flatten_flatMap_single {α β : Type} (f : β → List α) :
    ∀ l : List β, (l.flatMap fun d => [f d]).flatten = (l.map f).flatten
  | [] => rfl
  | a :: t => by
    simp [List.flatMap_cons, flatten_flatMap_single f t]

/-- Length of a single-element-separator interleaving: the sum of the chunk
lengths plus one separator per gap. -/
theorem length_intercalate_single {α : Type} (x : α) :
    ∀ L : List (List α),
      (List.intercalate [x] L).length = (L.map List.length).sum + (L.length - 1)
  | [] => by simp [List.intercalate]
  | [a] => by simp [List.intercalate]
  | a :: b :: t => by
    have ih := length_intercalate_single x (b :: t)
    have h1 : List.intercalate [x] (a :: b :: t)
        = a ++ [x] ++ List.intercalate [x] (b :: t) := by
      simp [List.intercalate, List.intersperse_cons_cons]
    rw [h1]
    simp only [List.length_append, ih, List.map_cons, List.sum_cons,
      List.length_cons, List.length_nil]
    omega

/-- The break sentinel never occurs among values coming from a backend. -/
theorem nan_not_mem_map_val {V : Type} (l : List V) :
    MVal.nan ∉ l.map MVal.val := by
  simp [List.mem_map]

/-! The claims. -/

/-- C1: for every composite with n > 0 paths whose backends report native
per-path row counts l_1..l_n, `length` returns sum(l_i) + (n-1), and `shape`
returns a row count of sum(per-path shape rows) + (n-1); for n = 0 the length
is 0. -/
theorem claim1_length_shape_separator {T D V S M : Type}
    (B : Backend T D V S M) (ds : Dataset T D V) (h : ds.data ≠ []) :
    MultiInterface.length B ds
      = (ds.data.map (fun d =>
          B.length ((MultiInterface.template0 ds (ds.data.head h)).rebind d))).sum
        + (ds.data.length - 1)
    ∧ (MultiInterface.shape B ds).1
      = (ds.data.map (fun d =>
          (B.shape ((MultiInterface.template0 ds (ds.data.head h)).rebind d)).1)).sum
        + (ds.data.length - 1)
    ∧ (∀ ds2 : Dataset T D V, ds2.data = [] → MultiInterface.length B ds2 = 0) := by
  obtain ⟨d0, rest, hd⟩ := List.exists_cons_of_ne_nil h
  refine ⟨?_, ?_, ?_⟩
  · simp [MultiInterface.length, hd]
  · simp only [MultiInterface.shape, hd, List.head_cons]
    rw [foldl_rows_fst (fun d => B.shape ((MultiInterface.template0 ds d0).rebind d))]
    simp [Nat.zero_add]
  · intro ds2 h2
    simp [MultiInterface.length, h2]

/-- C1 witness: on the two-path composite with native lengths 2 and 1,
`length` is 2 + 1 + 1 = 4 and the row count of `shape` is likewise 4. -/
theorem claim1_witness :
    MultiInterface.length TB dsTwo = 4 ∧ (MultiInterface.shape TB dsTwo).1 = 4 := by
  have h := claim1_length_shape_separator TB dsTwo (by decide)
  exact ⟨h.1.trans (by decide), h.2.1.trans (by decide)⟩

/-- C2: for every composite with an empty path list, `length` is 0, `shape`
is `(0, len(kdims) + len(vdims))`, `range` of any dimension is `(None, None)`,
and `values` is the empty sequence. -/
theorem claim2_empty_composite {T D V S M : Type} [DecidableEq D]
    [LinearOrder V] (B : Backend T D V S M) (ds : Dataset T D V)
    (h : ds.data = []) :
    MultiInterface.length B ds = 0
    ∧ MultiInterface.shape B ds = (0, ds.kdims.length + ds.vdims.length)
    ∧ (∀ d : D, MultiInterface.range B ds d = some (none, none))
    ∧ (∀ (d : D) (e f : Bool), MultiInterface.values B ds d e f = []) := by
  refine ⟨?_, ?_, ?_, ?_⟩ <;>
    simp [MultiInterface.length, MultiInterface.shape, MultiInterface.range,
      MultiInterface.values, dimensions, h]

/-- C2 witness: the concrete empty composite with one key and one value
dimension evaluates to length 0, shape (0, 2), range (None, None) and an
empty value sequence. -/
theorem claim2_witness :
    MultiInterface.length TB dsEmpty = 0
    ∧ MultiInterface.shape TB dsEmpty = (0, 2)
    ∧ MultiInterface.range TB dsEmpty 0 = some (none, none)
    ∧ MultiInterface.values TB dsEmpty 1 true true = [] := by
  have h := claim2_empty_composite TB dsEmpty rfl
  exact ⟨h.1, h.2.1.trans (by decide), h.2.2.1 0, h.2.2.2 1 true true⟩

/-- C7: `aggregate`, `groupby` and `sample` always fail with the unsupported-
operation error and never return a result; the composite (a pure value in this
embedding) is left untouched. -/
theorem claim7_unsupported_ops {T D V F C G : Type}
    (ds : Dataset T D V) (dims : List D) (fn : F) (ct : C) (gt : G)
    (smp : List T) :
    MultiInterface.aggregate ds dims fn
      = Except.error MultiError.unsupportedOperation
    ∧ MultiInterface.groupby ds dims ct gt
      = Except.error MultiError.unsupportedOperation
    ∧ MultiInterface.sample ds smp
      = Except.error MultiError.unsupportedOperation
    ∧ (∀ r, MultiInterface.aggregate ds dims fn ≠ Except.ok r)
    ∧ (∀ r, MultiInterface.groupby ds dims ct gt ≠ Except.ok r)
    ∧ (∀ r, MultiInterface.sample ds smp ≠ Except.ok r) := by
  refine ⟨rfl, rfl, rfl, ?_, ?_, ?_⟩ <;> intro r h <;>
    simp [MultiInterface.aggregate, MultiInterface.groupby,
      MultiInterface.sample] at h

/-- C3: for every composite with n > 0 paths, `values(dim, expanded=True,
flat)` is the concatenation of the per-path value sequences in path order with
exactly one break sentinel between consecutive paths and none after the last
(the interleaving `List.intercalate [MVal.nan]` of the sentinel-free per-path
sequences), and its total length is the sum of per-path value counts plus
(n - 1). -/
theorem claim3_expanded_values {T D V S M : Type}
    (B : Backend T D V S M) (ds : Dataset T D V) (dim : D) (flat : Bool)
    (d0 : T) (rest : List T) (h : ds.data = d0 :: rest) :
    MultiInterface.values B ds dim true flat
      = List.intercalate [MVal.nan]
          (ds.data.map fun d =>
            (B.values ((MultiInterface.template0 ds d0).rebind d) dim true flat).map
              MVal.val)
    ∧ (MultiInterface.values B ds dim true flat).length
      = (ds.data.map (fun d =>
          (B.values ((MultiInterface.template0 ds d0).rebind d) dim true flat).length)).sum
        + (ds.data.length - 1)
    ∧ (∀ l ∈ ds.data.map (fun d =>
          (B.values ((MultiInterface.template0 ds d0).rebind d) dim true flat).map
            MVal.val),
        MVal.nan ∉ l) := by
  simp only [h]
  have hmain : MultiInterface.values B ds dim true flat
      = List.intercalate [MVal.nan]
          ((d0 :: rest).map fun d =>
            (B.values ((MultiInterface.template0 ds d0).rebind d) dim true flat).map
              MVal.val) := by
    have hsep := dropLast_flatten_sep [MVal.nan]
      (fun d => (B.values ((MultiInterface.template0 ds d0).rebind d) dim true flat).map
        MVal.val)
      (d0 :: rest) (by simp)
    rw [← hsep]
    simp [MultiInterface.values, h]
  refine ⟨hmain, ?_, ?_⟩
  · rw [hmain, length_intercalate_single]
    simp [List.map_map, Function.comp_def, List.length_map]
  · intro l hl
    simp only [List.mem_map] at hl
    obtain ⟨d, _, rfl⟩ := hl
    exact nan_not_mem_map_val _

/-- C3 witness: for the two-path composite with value sequences `[1, 2]` and
`[3]`, the expanded values are `[1, 2, NaN, 3]`, of length 2 + 1 + 1 = 4. -/
theorem claim3_witness :
    MultiInterface.values TB dsTwo 1 true false
      = List.intercalate [MVal.nan] [[MVal.val 1, MVal.val 2], [MVal.val 3]]
    ∧ (MultiInterface.values TB dsTwo 1 true false).length = 4 := by
  have h := claim3_expanded_values TB dsTwo 1 false [1, 2] [[3]] rfl
  exact ⟨h.1.trans (by decide), h.2.1.trans (by decide)⟩

/-- C5 counterexample: the claim says `values(dim, expanded=False, flat)`
returns a sequence of per-path value arrays, one array per path; but on the
two-path composite the code returns the single spliced three-value sequence
`np.concatenate(values)`, with no two-element per-path structure. -/
theorem claim5_counterexample :
    dsTwo.data.length = 2
    ∧ MultiInterface.values TB dsTwo 1 false false
        = [MVal.val 1, MVal.val 2, MVal.val 3]
    ∧ (MultiInterface.values TB dsTwo 1 false false).length = 3 := by decide

/-- C5 amended: for every composite with at least one path, `values(dim,
expanded=False, flat)` returns the concatenation of the per-path value arrays
in path order into one single sequence, with no break sentinels inserted
(per-path array boundaries are not preserved in the output). -/
theorem claim5_amended_concat {T D V S M : Type}
    (B : Backend T D V S M) (ds : Dataset T D V) (dim : D) (flat : Bool)
    (d0 : T) (rest : List T) (h : ds.data = d0 :: rest) :
    MultiInterface.values B ds dim false flat
      = (ds.data.map fun d =>
          (B.values ((MultiInterface.template0 ds d0).rebind d) dim false flat).map
            MVal.val).flatten
    ∧ MVal.nan ∉ MultiInterface.values B ds dim false flat := by
  simp only [h]
  have hmain : MultiInterface.values B ds dim false flat
      = ((d0 :: rest).map fun d =>
          (B.values ((MultiInterface.template0 ds d0).rebind d) dim false flat).map
            MVal.val).flatten := by
    rw [← flatten_flatMap_single
      (fun d => (B.values ((MultiInterface.template0 ds d0).rebind d) dim false flat).map
        MVal.val)
      (d0 :: rest)]
    simp [MultiInterface.values, h]
  refine ⟨hmain, ?_⟩
  rw [hmain]
  intro hmem
  rw [List.mem_flatten] at hmem
  obtain ⟨l, hl, hnan⟩ := hmem
  simp only [List.mem_map] at hl
  obtain ⟨d, _, rfl⟩ := hl
  exact nan_not_mem_map_val _ hnan

/-- C5 amended witness: on the two-path composite the non-expanded values are
the spliced sequence `[1, 2, 3]`, sentinel-free. -/
theorem claim5_witness :
    MultiInterface.values TB dsTwo 1 false false
      = [[MVal.val 1, MVal.val 2], [MVal.val 3]].flatten
    ∧ MVal.nan ∉ MultiInterface.values TB dsTwo 1 false false := by
  have h := claim5_amended_concat TB dsTwo 1 false [1, 2] [[3]] rfl
  exact ⟨h.1.trans (by decide), h.2⟩

/-- C4 counterexample: with the legacy level override set but an empty path
list, `range` returns `(None, None)` — the emptiness guard fires before the
level check — so the claim's "regardless of the contents of the path list
(including when the path list is empty)" fails. -/
theorem claim4_counterexample :
    dsLevelEmpty.level = some 5
    ∧ dsLevelEmpty.vdims.head? = some 1
    ∧ dsLevelEmpty.data = []
    ∧ MultiInterface.range TB dsLevelEmpty 1 = some (none, none)
    ∧ MultiInterface.range TB dsLevelEmpty 1 ≠ some (some 5, some 5) := by decide

/-- C4 amended: for every composite with a *non-empty* path list on which the
legacy level override is set, `range` of the first value-dimension returns
`(level, level)` regardless of the contents of the path list. -/
theorem claim4_amended_level_override {T D V S M : Type} [DecidableEq D]
    [LinearOrder V] (B : Backend T D V S M) (ds : Dataset T D V)
    (lv : V) (v0 : D) (vs : List D)
    (h1 : ds.data ≠ []) (h2 : ds.level = some lv) (h3 : ds.vdims = v0 :: vs) :
    MultiInterface.range B ds v0 = some (some lv, some lv) := by
  obtain ⟨d0, rest, hd⟩ := List.exists_cons_of_ne_nil h1
  have hg : get_dimension ds v0 = some v0 := by
    simp [get_dimension, h3]
  simp [MultiInterface.range, hd, h2, h3, hg]

/-- C4 amended witness: on the two-path composite with level 5 and first
value-dimension 1, `range` of dimension 1 is `(5, 5)`. -/
theorem claim4_witness :
    MultiInterface.range TB dsTwoLevel 1 = some (some 5, some 5) :=
  claim4_amended_level_override TB dsTwoLevel 5 1 [] (by decide) rfl rfl

/-- C6 counterexample: on the empty composite, `select` raises (building the
template proxy indexes `dataset.data[0]`), returning no list at all — in
particular not the empty result list (one result per path) the claim
promises for every composite. -/
theorem claim6_counterexample :
    dsEmpty.data = [] ∧ MultiInterface.select TB dsEmpty () = none := by decide

/-- C6 amended: for every composite with at least one path, `select` and
`redim` each return a list containing exactly one per-path backend result per
input path, in exactly the path-list order; `redim` on an empty composite
returns the empty path sequence unchanged, while `select` on an empty
composite fails. -/
theorem claim6_amended_order {T D V S M : Type}
    (B : Backend T D V S M) (ds : Dataset T D V) (sel : S) (m : M)
    (d0 : T) (rest : List T) (h : ds.data = d0 :: rest) :
    (MultiInterface.select B ds sel
      = some (ds.data.map fun d =>
          B.select ((MultiInterface.template0 ds d0).rebind d) sel))
    ∧ (∀ ls, MultiInterface.select B ds sel = some ls →
        ls.length = ds.data.length
        ∧ ∀ (i : Nat) (d : T), ds.data[i]? = some d →
            ls[i]? = some (B.select ((MultiInterface.template0 ds d0).rebind d) sel))
    ∧ (MultiInterface.redim B ds m
      = ds.data.map fun d => B.redim ((MultiInterface.template0 ds d0).rebind d) m)
    ∧ (MultiInterface.redim B ds m).length = ds.data.length
    ∧ (∀ (i : Nat) (d : T), ds.data[i]? = some d →
        (MultiInterface.redim B ds m)[i]?
          = some (B.redim ((MultiInterface.template0 ds d0).rebind d) m))
    ∧ (∀ ds2 : Dataset T D V, ds2.data = [] → MultiInterface.redim B ds2 m = []) := by
  have hsel : MultiInterface.select B ds sel
      = some (ds.data.map fun d =>
          B.select ((MultiInterface.template0 ds d0).rebind d) sel) := by
    simp [MultiInterface.select, MultiInterface.template, h]
  have hred : MultiInterface.redim B ds m
      = ds.data.map fun d => B.redim ((MultiInterface.template0 ds d0).rebind d) m := by
    simp [MultiInterface.redim, h]
  refine ⟨hsel, ?_, hred, ?_, ?_, ?_⟩
  · intro ls hls
    rw [hsel] at hls
    obtain rfl : ls = ds.data.map fun d =>
        B.select ((MultiInterface.template0 ds d0).rebind d) sel :=
      (Option.some_inj.mp hls).symm
    refine ⟨List.length_map _ _, ?_⟩
    intro i d hid
    rw [List.getElem?_map, hid]
    rfl
  · rw [hred]; exact List.length_map _ _
  · intro i d hid
    rw [hred, List.getElem?_map, hid]
    rfl
  · intro ds2 h2
    simp [MultiInterface.redim, h2]

/-- C6 amended witness: on the two-path composite, `select` (keeping
non-negative rows) and `redim` both return two-element lists in path order;
`redim` on the empty composite returns `[]`. -/
theorem claim6_witness :
    MultiInterface.select TB dsTwo () = some [[1, 2], [3]]
    ∧ MultiInterface.redim TB dsTwo () = [[1, 2], [3]]
    ∧ MultiInterface.redim TB dsEmpty () = [] := by
  have h := claim6_amended_order TB dsTwo () () [1, 2] [[3]] rfl
  exact ⟨h.1.trans (by decide), h.2.2.1.trans (by decide),
    h.2.2.2.2.2 dsEmpty rfl⟩

/-- C8: for a closed-shape composite, `split` returns the whole composite as
a single-element list regardless of `start`/`stop`; otherwise it returns one
freshly cloned single-table dataset per path of the half-open slice
`[start, stop)`, in path order. -/
theorem claim8_split_cases {T D V : Type} (ds : Dataset T D V) (s e : Nat) :
    (ds.isBaseShape = true → MultiInterface.split ds s e = [Sum.inl ds])
    ∧ (ds.isBaseShape = false →
        (MultiInterface.split ds s e).length = ((ds.data.take e).drop s).length
        ∧ ∀ (i : Nat) (d : T), ((ds.data.take e).drop s)[i]? = some d →
            (MultiInterface.split ds s e)[i]?
              = some (Sum.inr (MultiInterface.clone ds d))) := by
  constructor
  · intro hb
    simp [MultiInterface.split, hb]
  · intro hb
    constructor
    · simp [MultiInterface.split, hb]
    · intro i d hid
      rw [MultiInterface.split, if_neg (by simp [hb]), List.getElem?_map, hid]
      rfl

/-- C8 witness: the closed-shape composite splits to itself whatever the
slice; the ordinary two-path composite splits over `[0, 2)` into two
single-table datasets. -/
theorem claim8_witness :
    MultiInterface.split dsShape 0 1 = [Sum.inl dsShape]
    ∧ (MultiInterface.split dsTwo 0 2).length = 2 := by
  constructor
  · exact (claim8_split_cases dsShape 0 1).1 rfl
  · exact ((claim8_split_cases dsTwo 0 2).2 rfl).1.trans (by decide)

/-- C9 counterexample: on the empty composite, building the template proxy
fails (`dataset.data[0]` raises IndexError) instead of yielding a synthetic
empty table, and `select` — which builds the proxy without an emptiness
check — fails with it. -/
theorem claim9_counterexample :
    dsEmpty.data = []
    ∧ MultiInterface.template dsEmpty = none
    ∧ MultiInterface.select TB dsEmpty () = none := by decide

/-- C9 amended: building the template proxy succeeds exactly on composites
with a non-empty path list, and then yields a single-table proxy whose data is
`paths[0]`, whose key-dimensions are the composite's, and whose
value-dimensions are empty when a legacy level override is active and the
composite's own otherwise (so empty exactly when the override is active,
provided the composite has at least one value-dimension); on an empty
composite, `template` and the operations that build the proxy without first
checking for emptiness (such as `select`) fail. -/
theorem claim9_amended_template {T D V S M : Type}
    (B : Backend T D V S M) (ds dsE : Dataset T D V) (sel : S)
    (d0 : T) (rest : List T) (h : ds.data = d0 :: rest) (hE : dsE.data = []) :
    MultiInterface.template ds = some (MultiInterface.template0 ds d0)
    ∧ (MultiInterface.template0 ds d0).data = d0
    ∧ (MultiInterface.template0 ds d0).kdims = ds.kdims
    ∧ (ds.level.isSome = true → (MultiInterface.template0 ds d0).vdims = [])
    ∧ (ds.level = none → (MultiInterface.template0 ds d0).vdims = ds.vdims)
    ∧ (ds.vdims ≠ [] →
        ((MultiInterface.template0 ds d0).vdims = [] ↔ ds.level.isSome = true))
    ∧ MultiInterface.template dsE = none
    ∧ MultiInterface.select B dsE sel = none := by
  refine ⟨?_, rfl, rfl, ?_, ?_, ?_, ?_, ?_⟩
  · simp [MultiInterface.template, h]
  · intro hl
    simp [MultiInterface.template0, hl]
  · intro hl
    simp [MultiInterface.template0, hl]
  · intro hv
    cases hl : ds.level <;> simp [MultiInterface.template0, hl, hv]
  · simp [MultiInterface.template, hE]
  · simp [MultiInterface.select, MultiInterface.template, hE]

/-- C9 amended witness: on the two-path composites, the template holds the
first path's data with the composite's vdims, or empty vdims when the level
override is set; `select` on the empty composite fails. -/
theorem claim9_witness :
    MultiInterface.template dsTwo
      = some { data := [1, 2], kdims := [0], vdims := [1] }
    ∧ MultiInterface.template dsTwoLevel
      = some { data := [1, 2], kdims := [0], vdims := [] }
    ∧ MultiInterface.select TB dsEmpty () = none := by
  have h1 := claim9_amended_template TB dsTwo dsEmpty () [1, 2] [[3]] rfl rfl
  have h2 := claim9_amended_template TB dsTwoLevel dsEmpty () [1, 2] [[3]] rfl rfl
  exact ⟨h1.1.trans (by decide), h2.1.trans (by decide), h1.2.2.2.2.2.2.2⟩

/-- C10: `nonzero` is true exactly when `length` is non-zero; consequently a
composite of n ≥ 2 paths whose backends all report native length 0 is
reported as non-empty, because the n-1 separator rows make its logical length
positive. -/
theorem claim10_nonzero_iff_length {T D V S M : Type}
    (B : Backend T D V S M) (ds : Dataset T D V) (d0 : T) (rest : List T) :
    (MultiInterface.nonzero B ds = true ↔ MultiInterface.length B ds ≠ 0)
    ∧ (ds.data = d0 :: rest → rest ≠ [] →
        (∀ d ∈ ds.data, B.length ((MultiInterface.template0 ds d0).rebind d) = 0) →
        MultiInterface.nonzero B ds = true) := by
  have hiff : MultiInterface.nonzero B ds = true
      ↔ MultiInterface.length B ds ≠ 0 := by
    simp [MultiInterface.nonzero, bne_iff_ne]
  refine ⟨hiff, ?_⟩
  intro hd hrest hz
  have hlen : MultiInterface.length B ds
      = ((d0 :: rest).map fun d =>
          B.length ((MultiInterface.template0 ds d0).rebind d)).sum
        + ((d0 :: rest).length - 1) := by
    simp [MultiInterface.length, hd]
  have hsum : ((d0 :: rest).map fun d =>
      B.length ((MultiInterface.template0 ds d0).rebind d)).sum = 0 := by
    apply List.sum_eq_zero
    intro x hx
    simp only [List.mem_map] at hx
    obtain ⟨d, hdm, rfl⟩ := hx
    exact hz d (hd ▸ hdm)
  rw [hiff, hlen, hsum]
  have hr : rest.length ≠ 0 := by
    simpa [List.length_eq_zero] using hrest
  have hc : (d0 :: rest).length = rest.length + 1 := by simp
  omega

/-- C10 witness: the composite of two zero-length paths has length 1 (a lone
separator row) and is reported non-empty. -/
theorem claim10_witness :
    MultiInterface.nonzero TB dsZeros = true
    ∧ MultiInterface.length TB dsZeros = 1 := by
  exact ⟨(claim10_nonzero_iff_length TB dsZeros [] [[]]).2 rfl (by decide)
    (by decide), by decide⟩

end Multipath
